import Mathlib

/-!
Shallow embedding of the DOJ J-Book extraction-and-fusion pipeline
(src/doj_jbook/etl): the tabular ingestor and hierarchical row walker
(xml_r3_parser.py), the narrative section extractor (r2_parser.py), the
fusion engine (fusion.py) and the canonical schema (schema.py).

Modelling conventions: machine floats are rationals; spreadsheet cells are
an inductive value (absent, string, numeric); Python Optional[str] is
Option String; a Python dict lookup is a function into Option; the ASCII
fragment of the Python string and regex operations is embedded.
-/

namespace DojJbook

set_option maxRecDepth 40000

/-- White-space test shared by Python str.strip and the regex class \s,
ASCII fragment. -/
def isPySpace (c : Char) : Bool :=
  c = ' ' || c = '\t' || c = '\n' || c = '\r' || c = '\x0b' || c = '\x0c'

/-- Word character for the regex \b boundary, ASCII fragment. -/
def isWordChar (c : Char) : Bool := c.isAlphanum || c = '_'

/-- Strip leading and trailing white space from a character list. -/
def stripChars (cs : List Char) : List Char :=
  ((cs.dropWhile isPySpace).reverse.dropWhile isPySpace).reverse

/-- Python str.strip. -/
def pyStrip (s : String) : String := String.mk (stripChars s.toList)

/-- Python str.lower, ASCII fragment. -/
def lowerStr (s : String) : String := String.mk (s.toList.map Char.toLower)

/-- Python str.upper, ASCII fragment. -/
def upperStr (s : String) : String := String.mk (s.toList.map Char.toUpper)

/-- Substring search helper: does pat occur as a prefix of some suffix. -/
def infixAux (pat : List Char) : List Char → Bool
  | [] => pat.isEmpty
  | c :: t => pat.isPrefixOf (c :: t) || infixAux pat t

/-- Python substring containment, pat in s. -/
def containsSub (pat s : String) : Bool := infixAux pat.toList s.toList

/-- Python str.endswith. -/
def endsWithS (s pat : String) : Bool := pat.toList.reverse.isPrefixOf s.toList.reverse

/-- Python str.startswith. -/
def startsWithS (s pat : String) : Bool := pat.toList.isPrefixOf s.toList

/-- Python s.replace applied with a comma pattern and empty replacement. -/
def rmCommas (s : String) : String := String.mk (s.toList.filter (fun c => c != ','))

/-- Python expression a or b on two Optional[str] operands: the left
operand is kept when it is truthy (neither None nor empty). -/
def pyOrO (a b : Option String) : Option String := if a.getD "" = "" then b else a

/-- Python expression a or b where a is a str and b an Optional[str]. -/
def pyOrSO (a : String) (b : Option String) : Option String := if a = "" then b else some a

/-- Python truthiness of an Optional[str]: true unless None or empty. -/
def pyTruthy (o : Option String) : Bool := o.getD "" != ""

/-- Numeric value of a list of decimal digits. -/
def digitsToNat (ds : List Char) : Nat := ds.foldl (fun a c => a * 10 + (c.toNat - '0'.toNat)) 0

/-- Exponent suffix of a Python float literal, after the letter e. -/
def pfExpTail (base : Rat) (r : List Char) : Option Rat :=
  let sr : Int × List Char :=
    match r with
    | '+' :: t => (1, t)
    | '-' :: t => (-1, t)
    | _ => (1, r)
  let ds := sr.2.takeWhile Char.isDigit
  let rest := sr.2.dropWhile Char.isDigit
  if ds.isEmpty || !rest.isEmpty then Option.none
  else if sr.1 = 1 then some (base * (10 : Rat) ^ digitsToNat ds)
  else some (base / (10 : Rat) ^ digitsToNat ds)

/-- Mantissa value followed by an optional exponent part of a float
literal: m is the mantissa read as an integer and fracLen the number of
its fractional digits. -/
def pfExp (m : Nat) (fracLen : Nat) (rest : List Char) : Option Rat :=
  let base : Rat := (m : Rat) / (10 : Rat) ^ fracLen
  match rest with
  | [] => some base
  | 'e' :: r => pfExpTail base r
  | 'E' :: r => pfExpTail base r
  | _ => Option.none

/-- Unsigned body of a Python float literal: digits with an optional
fraction, or a leading dot with digits, then an optional exponent. -/
def pfBody (cs : List Char) : Option Rat :=
  let ip := cs.takeWhile Char.isDigit
  let r1 := cs.dropWhile Char.isDigit
  match ip, r1 with
  | [], '.' :: r2 =>
    let fp := r2.takeWhile Char.isDigit
    let r3 := r2.dropWhile Char.isDigit
    if fp.isEmpty then Option.none else pfExp (digitsToNat fp) fp.length r3
  | [], _ => Option.none
  | _, '.' :: r2 =>
    let fp := r2.takeWhile Char.isDigit
    let r3 := r2.dropWhile Char.isDigit
    pfExp (digitsToNat ip * 10 ^ fp.length + digitsToNat fp) fp.length r3
  | _, _ => pfExp (digitsToNat ip) 0 r1

/-- Python float(s) on the finite decimal fragment: optional surrounding
white space, optional sign, digits with optional fraction and exponent.
The special spellings inf and nan and underscored literals lie outside
this model, as do the floating-point values they build. -/
def pyFloat (s : String) : Option Rat :=
  match stripChars s.toList with
  | '+' :: r => pfBody r
  | '-' :: r => (pfBody r).map (fun q => -q)
  | r => pfBody r

/-- One spreadsheet cell value as seen through openpyxl: absent, a string,
or a number. -/
inductive Cell where
  | none
  | str (s : String)
  | num (q : Rat)
deriving DecidableEq

/-- Strip the trailing zero digits of a fractional part. -/
def stripTrailingZeros (s : List Char) : List Char := (s.reverse.dropWhile (fun c => c = '0')).reverse

/-- Python str() of a float cell value, for values with a finite decimal
expansion: integral values print with a trailing .0 as Python does;
other values print up to seventeen truncated fractional digits. -/
def floatStr (q : Rat) : String :=
  let sign := if q.num < 0 then "-" else ""
  let n := q.num.natAbs
  let ip := n / q.den
  let fr := n % q.den
  if fr = 0 then sign ++ toString ip ++ ".0"
  else
    let ds := toString (fr * 10 ^ 17 / q.den)
    let padded := List.replicate (17 - ds.length) '0' ++ ds.toList
    let frs := stripTrailingZeros padded
    sign ++ toString ip ++ "." ++ String.mk (if frs.isEmpty then ['0'] else frs)

/-- Embeds _parse_float_safe of xml_r3_parser.py: None propagates, a
string has commas removed and white space trimmed before float parsing,
and any parse failure gives None. -/
def parse_float_safe (v : Option String) : Option Rat :=
  match v with
  | Option.none => Option.none
  | some s => pyFloat (pyStrip (rmCommas s))

/-- Embeds _parse_float_safe_any of xml_r3_parser.py on the modelled cell
values: numbers pass through, blank strings give None, other strings are
parsed after comma removal and trimming, failures give None. -/
def parse_float_safe_any (v : Cell) : Option Rat :=
  match v with
  | Cell.none => Option.none
  | Cell.num q => some q
  | Cell.str s => if pyStrip s = "" then Option.none else pyFloat (pyStrip (rmCommas s))

/-- The same _parse_float_safe_any applied to the result of the row value
reader gv, which is an Optional[str]. -/
def parse_float_safe_opt (v : Option String) : Option Rat :=
  match v with
  | Option.none => Option.none
  | some s => if pyStrip s = "" then Option.none else pyFloat (pyStrip (rmCommas s))

/-- One cost line record as produced by the tabular ingestor, the row
dict of xml_r3_parser.py; string identifier fields are trimmed strings,
cost fields are nullable numbers, and R1D_Description is present only on
rows from a hierarchical sheet. -/
structure CostLineRecord where
  PENumber : String
  PEName : String
  ProjectNumber : String
  ProjectName : String
  CostCategory : String
  FY2023_Cost : Option Rat
  FY2024_Cost : Option Rat
  FY2025_Base_Cost : Option Rat
  R1D_Description : Option String
deriving DecidableEq

/-- One narrative bundle per program element, the section dict returned
by extract_r2_sections_for_pe of r2_parser.py; is_new_start holds the
stringified boolean of that function. -/
structure NarrativeBundle where
  mission : Option String
  accomplishments : Option String
  acquisition : Option String
  is_new_start : Option String
deriving DecidableEq

/-- Canonical enriched record of schema.py. -/
structure EnrichedRecord where
  SourceFile : String
  PENumber : String
  PEName : String
  ProjectNumber : String
  ProjectName : String
  CostCategory : String
  FY2023_Cost : Option Rat
  FY2024_Cost : Option Rat
  FY2025_Base_Cost : Option Rat
  AccomplishmentsText : Option String
  AcquisitionStrategyText : Option String
  IsNewStart : Option Bool
  MissionDescriptionText : Option String
deriving DecidableEq

/-- The empty dict default used by r2_lookup.get in fusion.py: every
field absent. -/
def emptyBundle : NarrativeBundle := ⟨Option.none, Option.none, Option.none, Option.none⟩

/-- Embeds the is_new_start decoding of fuse_r3_with_r2 in fusion.py:
only a string value is inspected, case-insensitively. -/
def decodeNewStart (v : Option String) : Option Bool :=
  match v with
  | Option.none => Option.none
  | some s =>
    let l := lowerStr s
    if l = "true" || l = "yes" || l = "1" then some true
    else if l = "false" || l = "no" || l = "0" then some false
    else Option.none

/-- Embeds one iteration of the fusion loop of fuse_r3_with_r2 in
fusion.py: look up the trimmed PENumber, decode the new-start flag, and
apply the R1D description fallback only when requested and the bundle
text is missing or empty. -/
def fuseRow (srcFile : String) (lookup : String → Option NarrativeBundle)
    (useR1dDescription : Bool) (row : CostLineRecord) : EnrichedRecord :=
  let pe := pyStrip row.PENumber
  let texts := (lookup pe).getD emptyBundle
  let isNewStart := decodeNewStart texts.is_new_start
  let r1dDesc := pyStrip (row.R1D_Description.getD "")
  let acc :=
    if useR1dDescription && !pyTruthy texts.accomplishments && r1dDesc != "" then some r1dDesc
    else texts.accomplishments
  let mis :=
    if useR1dDescription && !pyTruthy texts.mission && r1dDesc != "" then some r1dDesc
    else texts.mission
  { SourceFile := srcFile
    PENumber := row.PENumber
    PEName := row.PEName
    ProjectNumber := row.ProjectNumber
    ProjectName := row.ProjectName
    CostCategory := row.CostCategory
    FY2023_Cost := row.FY2023_Cost
    FY2024_Cost := row.FY2024_Cost
    FY2025_Base_Cost := row.FY2025_Base_Cost
    AccomplishmentsText := acc
    AcquisitionStrategyText := texts.acquisition
    IsNewStart := isNewStart
    MissionDescriptionText := mis }

/-- Embeds fuse_r3_with_r2 of fusion.py: one enriched record per cost
line row, in input order. -/
def fuse_r3_with_r2 (srcFile : String) (rows : List CostLineRecord)
    (lookup : String → Option NarrativeBundle) (useR1dDescription : Bool) : List EnrichedRecord :=
  rows.map (fuseRow srcFile lookup useR1dDescription)

/-- Raw string a cell prints as through Python str(); the absent case is
never reached behind the None guards of the source. -/
def cellRaw (c : Cell) : String :=
  match c with
  | Cell.none => ""
  | Cell.str s => s
  | Cell.num q => floatStr q

/-- Header cell key of xml_r3_parser.py: str(value).strip().lower() when
the value is present, else the empty string. -/
def cellKey (c : Cell) : String :=
  match c with
  | Cell.none => ""
  | _ => lowerStr (pyStrip (cellRaw c))

/-- The header map dict of _header_map in xml_r3_parser.py: each field
holds the column index the first matching rule assigned, if any. -/
structure HdrMap where
  peNum : Option Nat
  peName : Option Nat
  projNum : Option Nat
  projName : Option Nat
  costCat : Option Nat
  typeCol : Option Nat
  titleCol : Option Nat
  descCol : Option Nat
  fy23 : Option Nat
  fy24 : Option Nat
  fy25Base : Option Nat
deriving DecidableEq

/-- The empty header map. -/
def emptyHdrMap : HdrMap :=
  ⟨Option.none, Option.none, Option.none, Option.none, Option.none, Option.none,
   Option.none, Option.none, Option.none, Option.none, Option.none⟩

/-- Python dict.setdefault: assign the index only when the field is still
unset and the rule fires. -/
def sdef (cur : Option Nat) (cond : Bool) (idx : Nat) : Option Nat :=
  if cur.isNone && cond then some idx else cur

/-- One header cell applied to the map, all rules of _header_map in
source order; rules targeting the same field combine through setdefault,
so their disjunction is taken. -/
def headerMapStep (m : HdrMap) (idx : Nat) (c : Cell) : HdrMap :=
  let v := cellKey c
  if v = "" then m else
  { peNum := sdef m.peNum
      ((containsSub "program element" v && (containsSub "number" v || endsWithS v "program element"))
        || v = "pe#") idx
    peName := sdef m.peName
      (containsSub "program element name" v || containsSub "pe name" v
        || (endsWithS v "title" && containsSub "program element" v)) idx
    projNum := sdef m.projNum
      (containsSub "project number" v || v = "project" || v = "project#") idx
    projName := sdef m.projName
      (containsSub "project name" v || containsSub "project title" v) idx
    costCat := sdef m.costCat
      (containsSub "cost category" v || containsSub "cost element" v || containsSub "line item" v) idx
    typeCol := sdef m.typeCol (v = "type") idx
    titleCol := sdef m.titleCol
      (containsSub "accomplishments/planned programs title" v || startsWithS v "pe/project/") idx
    descCol := sdef m.descCol (v = "description") idx
    fy23 := sdef m.fy23 (containsSub "fy2023" v || v = "fy 2023" || v = "fy23") idx
    fy24 := sdef m.fy24 (containsSub "fy2024" v || v = "fy 2024" || v = "fy24") idx
    fy25Base := sdef m.fy25Base
      (containsSub "fy 2025 base" v || v = "fy25 base"
        || (containsSub "fy2025" v && containsSub "base" v) || containsSub "fy2025 base" v) idx }

/-- Fold of headerMapStep over the header cells with their indices. -/
def headerMapAux : List Cell → Nat → HdrMap → HdrMap
  | [], _, m => m
  | c :: cs, i, m => headerMapAux cs (i + 1) (headerMapStep m i c)

/-- Embeds _header_map of xml_r3_parser.py. -/
def header_map (cells : List Cell) : HdrMap := headerMapAux cells 0 emptyHdrMap

/-- Emptiness of the header map dict, the falsy check of
_parse_xlsx_file. -/
def hdrMapIsEmpty (m : HdrMap) : Bool :=
  m.peNum.isNone && m.peName.isNone && m.projNum.isNone && m.projName.isNone
    && m.costCat.isNone && m.typeCol.isNone && m.titleCol.isNone && m.descCol.isNone
    && m.fy23.isNone && m.fy24.isNone && m.fy25Base.isNone

/-- Space join of Python " ".join. -/
def joinSpace : List String → String
  | [] => ""
  | [s] => s
  | s :: rest => s ++ " " ++ joinSpace rest

/-- Header row predicate of _find_header_row: the generic keyword test on
the joined row, the alternate generic match, or the hierarchical R-1D
signature. -/
def headerRowHit (row : List Cell) : Bool :=
  let values := row.map cellKey
  let joined := joinSpace values
  (containsSub "project" joined && containsSub "program" joined && containsSub "element" joined)
    || (values.any (fun v => containsSub "program element" v)
          && values.any (fun v => containsSub "project" v))
    || (values.any (fun v => v = "type") && values.any (fun v => containsSub "pe#" v)
          && values.any (fun v => containsSub "project#" v))

/-- Scan of _find_header_row with the one-based row counter, bounded at
fifty rows. -/
def findHeaderRowAux : List (List Cell) → Nat → Option Nat
  | [], _ => Option.none
  | row :: rest, i =>
    if i > 50 then Option.none
    else if headerRowHit row then some i
    else findHeaderRowAux rest (i + 1)

/-- Embeds _find_header_row of xml_r3_parser.py over a worksheet given as
its list of rows; returns the one-based header row index. -/
def find_header_row (rows : List (List Cell)) : Option Nat := findHeaderRowAux rows 1

/-- Blank row test of the walker loops: every cell is None or a string of
white space. -/
def blankRow (row : List Cell) : Bool :=
  row.all (fun c =>
    match c with
    | Cell.none => true
    | Cell.str s => pyStrip s = ""
    | Cell.num _ => false)

/-- The row value reader gv of xml_r3_parser.py: index the row through
the header map, None when unmapped or out of range or the cell is None,
else str(value).strip(). -/
def gv (idx : Option Nat) (row : List Cell) : Option String :=
  match idx with
  | Option.none => Option.none
  | some i =>
    if h : i < row.length then
      match row.get ⟨i, h⟩ with
      | Cell.none => Option.none
      | c => some (pyStrip (cellRaw c))
    else Option.none

/-- Mutable context of the hierarchical row walker: current program
element and current project, number and name each. -/
structure WalkState where
  peNum : Option String
  peName : Option String
  projNum : Option String
  projName : Option String
deriving DecidableEq

/-- The initial walker context: nothing set. -/
def initialWalkState : WalkState := ⟨Option.none, Option.none, Option.none, Option.none⟩

/-- The _norm helper of xml_r3_parser.py on an Optional[str]. -/
def normOpt (o : Option String) : String := pyStrip (o.getD "")

/-- Upper-cased Type cell of a row, the typ value of _parse_r1d_sheet. -/
def rowTypeOf (hdr : HdrMap) (row : List Cell) : String :=
  upperStr ((gv hdr.typeCol row).getD "")

/-- Derived category text of a leaf row in _parse_r1d_sheet: the first
truthy value among title, description and typ, normalized. -/
def leafCategory (hdr : HdrMap) (row : List Cell) : String :=
  let typ := rowTypeOf hdr row
  let title := (gv hdr.titleCol row).getD ""
  pyStrip (if title = "" then (if (gv hdr.descCol row).getD "" = "" then typ
    else (gv hdr.descCol row).getD "") else title)

/-- Summary duplicate test of _parse_r1d_sheet on the lower-cased
category text. -/
def summaryGuard (cat : String) : Bool :=
  let l := lowerStr cat
  (containsSub "totals" l && containsSub "sum of" l) || l = "project totals"

/-- Updated project number a PROJECT row assigns to the context. -/
def projectNumUpd (hdr : HdrMap) (row : List Cell) (st : WalkState) : Option String :=
  pyOrO (gv hdr.projNum row) st.projNum

/-- Updated project name a PROJECT row assigns to the context. -/
def projectNameUpd (hdr : HdrMap) (row : List Cell) (st : WalkState) : Option String :=
  pyOrSO ((gv hdr.titleCol row).getD "") st.projName

/-- Project totals record a PROJECT row emits in _parse_r1d_sheet. -/
def projectRecord (hdr : HdrMap) (row : List Cell) (st : WalkState) : CostLineRecord :=
  { PENumber := normOpt st.peNum
    PEName := normOpt st.peName
    ProjectNumber := normOpt (projectNumUpd hdr row st)
    ProjectName := normOpt (projectNameUpd hdr row st)
    CostCategory := "Project Totals"
    FY2023_Cost := parse_float_safe_opt (gv hdr.fy23 row)
    FY2024_Cost := parse_float_safe_opt (gv hdr.fy24 row)
    FY2025_Base_Cost := parse_float_safe_opt (gv hdr.fy25Base row)
    R1D_Description := some ((gv hdr.descCol row).getD "") }

/-- Cost category record a leaf row builds in _parse_r1d_sheet before the
guards run. -/
def leafRecord (hdr : HdrMap) (row : List Cell) (st : WalkState) : CostLineRecord :=
  { PENumber := normOpt st.peNum
    PEName := normOpt st.peName
    ProjectNumber := normOpt st.projNum
    ProjectName := normOpt st.projName
    CostCategory := leafCategory hdr row
    FY2023_Cost := parse_float_safe_opt (gv hdr.fy23 row)
    FY2024_Cost := parse_float_safe_opt (gv hdr.fy24 row)
    FY2025_Base_Cost := parse_float_safe_opt (gv hdr.fy25Base row)
    R1D_Description := some ((gv hdr.descCol row).getD "") }

/-- Embeds one non-blank iteration of the row loop of _parse_r1d_sheet:
the emitted records of the row together with the updated context. -/
def stepRow (hdr : HdrMap) (row : List Cell) (st : WalkState) :
    List CostLineRecord × WalkState :=
  let typ := rowTypeOf hdr row
  if typ = "PE" then
    ([], ⟨pyOrO (gv hdr.peNum row) st.peNum, pyOrSO ((gv hdr.titleCol row).getD "") st.peName,
      Option.none, Option.none⟩)
  else if typ = "PROJECT" ∨ typ = "PROJECTS" ∨ typ = "PRJ" then
    ([projectRecord hdr row st],
      ⟨st.peNum, st.peName, projectNumUpd hdr row st, projectNameUpd hdr row st⟩)
  else if (typ = "A/PP" ∨ typ = "CA") ∨ (typ ≠ "" ∧ typ ≠ "PE" ∧ typ ≠ "PROJECT") then
    if summaryGuard (leafCategory hdr row) then ([], st)
    else if (leafRecord hdr row st).PENumber ≠ "" ∨ (leafRecord hdr row st).ProjectNumber ≠ ""
        ∨ (leafRecord hdr row st).CostCategory ≠ "" then
      ([leafRecord hdr row st], st)
    else ([], st)
  else ([], st)

/-- The row loop of _parse_r1d_sheet with its blank streak counter; ten
consecutive blank rows end the walk. -/
def walkRows (hdr : HdrMap) : List (List Cell) → WalkState → Nat → List CostLineRecord
  | [], _, _ => []
  | row :: rest, st, streak =>
    if blankRow row then
      if streak + 1 ≥ 10 then [] else walkRows hdr rest st (streak + 1)
    else
      let p := stepRow hdr row st
      p.1 ++ walkRows hdr rest p.2 0

/-- Embeds _parse_r1d_sheet of xml_r3_parser.py over the data rows below
the header row. -/
def parse_r1d_sheet (hdr : HdrMap) (rows : List (List Cell)) : List CostLineRecord :=
  walkRows hdr rows initialWalkState 0

/-- The generic data row loop of _parse_xlsx_file with its blank streak
counter; five consecutive blank rows end the scan, and rows lacking both
PE and project identifiers are skipped. -/
def walkGeneric (hdr : HdrMap) : List (List Cell) → Nat → List CostLineRecord
  | [], _ => []
  | row :: rest, streak =>
    if blankRow row then
      if streak + 1 ≥ 5 then [] else walkGeneric hdr rest (streak + 1)
    else
      let rec1 : CostLineRecord :=
        { PENumber := normOpt (gv hdr.peNum row)
          PEName := normOpt (gv hdr.peName row)
          ProjectNumber := normOpt (gv hdr.projNum row)
          ProjectName := normOpt (gv hdr.projName row)
          CostCategory := normOpt (gv hdr.costCat row)
          FY2023_Cost := parse_float_safe_opt (gv hdr.fy23 row)
          FY2024_Cost := parse_float_safe_opt (gv hdr.fy24 row)
          FY2025_Base_Cost := parse_float_safe_opt (gv hdr.fy25Base row)
          R1D_Description := Option.none }
      if rec1.PENumber = "" ∧ rec1.ProjectNumber = "" then walkGeneric hdr rest 0
      else rec1 :: walkGeneric hdr rest 0

/-- Embeds the per-worksheet body of _parse_xlsx_file: find the header
row, build the header map, and dispatch to the hierarchical walker when
Type, PE number and project number are all mapped, else to the generic
row loop. -/
def parse_sheet (rows : List (List Cell)) : List CostLineRecord :=
  match find_header_row rows with
  | Option.none => []
  | some h =>
    let headerCells := (rows.get? (h - 1)).getD []
    let m := header_map headerCells
    if hdrMapIsEmpty m then []
    else if m.typeCol.isSome && m.peNum.isSome && m.projNum.isSome then
      parse_r1d_sheet m (rows.drop h)
    else walkGeneric m (rows.drop h) 0

/-- List concatenation map used for the per-sheet and per-file loops. -/
def concatMap (f : α → List β) : List α → List β
  | [] => []
  | a :: l => f a ++ concatMap f l

/-- Embeds _parse_xlsx_file of xml_r3_parser.py: None models a workbook
load_workbook failed to open, which contributes no records. -/
def parse_xlsx_file (wb : Option (List (List (List Cell)))) : List CostLineRecord :=
  match wb with
  | Option.none => []
  | some sheets => concatMap parse_sheet sheets

/-- One XML element as exposed by the XML reading collaborator: tag,
attributes, own text, children in document order. -/
inductive XmlNode where
  | el (tag : String) (attrs : List (String × String)) (text : Option String)
      (children : List XmlNode)

/-- Tag accessor. -/
def xmlTag : XmlNode → String
  | XmlNode.el t _ _ _ => t

/-- Child list accessor. -/
def xmlChildren : XmlNode → List XmlNode
  | XmlNode.el _ _ _ cs => cs

/-- Element get(attribute): first binding of the name, None when absent. -/
def xmlGet (n : XmlNode) (a : String) : Option String :=
  match n with
  | XmlNode.el _ attrs _ _ =>
    match attrs.find? (fun p => p.1 = a) with
    | Option.none => Option.none
    | some p => some p.2

/-- Element findtext(tag): the text of the first direct child with that
exact tag, the empty string when that child has no text, None when no
such child exists. -/
def findtext (n : XmlNode) (tag : String) : Option String :=
  match (xmlChildren n).find? (fun c => xmlTag c = tag) with
  | Option.none => Option.none
  | some (XmlNode.el _ _ txt _) => some (txt.getD "")

mutual

/-- Descendant-or-self list of an element in document order, the node set
of an XPath double slash step. -/
def xmlDescs : XmlNode → List XmlNode
  | XmlNode.el t a x cs => XmlNode.el t a x cs :: xmlDescsList cs

/-- Descendant-or-self lists of a forest, concatenated. -/
def xmlDescsList : List XmlNode → List XmlNode
  | [] => []
  | c :: cs => xmlDescs c ++ xmlDescsList cs

end

/-- Proper descendants of an element, the node set of a relative
dot-double-slash step, which excludes the element itself. -/
def xmlDescsProper (n : XmlNode) : List XmlNode := xmlDescsList (xmlChildren n)

/-- Program element tag aliases of the _parse_xml_file XPath. -/
def peAliases : List String := ["ProgramElement", "PROGRAM_ELEMENT", "Pe", "PE"]

/-- Project tag aliases of the _parse_xml_file XPath. -/
def projAliases : List String := ["Project", "PROJECT", "Proj"]

/-- Cost line tag aliases of the _parse_xml_file XPath. -/
def ccAliases : List String := ["CostCategory", "COST_CATEGORY", "Line", "COST_LINE", "CostItem"]

/-- Cost category element of _parse_xml_file turned into one record,
under the given program element and project strings. -/
def xmlCcRecord (peNumber peName projectNumber projectName : Option String)
    (cc : XmlNode) : CostLineRecord :=
  let ccName := pyOrO (pyOrO (pyOrO (xmlGet cc "name") (findtext cc "Name"))
    (findtext cc "COST_CATEGORY")) (findtext cc "LINE_NAME")
  { PENumber := normOpt peNumber
    PEName := normOpt peName
    ProjectNumber := normOpt projectNumber
    ProjectName := normOpt projectName
    CostCategory := normOpt ccName
    FY2023_Cost := parse_float_safe (pyOrO (xmlGet cc "FY2023") (findtext cc "FY2023"))
    FY2024_Cost := parse_float_safe (pyOrO (xmlGet cc "FY2024") (findtext cc "FY2024"))
    FY2025_Base_Cost := parse_float_safe (pyOrO (pyOrO (pyOrO (xmlGet cc "FY2025Base")
      (findtext cc "FY2025Base")) (findtext cc "FY2025_Base")) (findtext cc "FY2025"))
    R1D_Description := Option.none }

/-- Project element loop body of _parse_xml_file. -/
def xmlProjRecords (peNumber peName : Option String) (proj : XmlNode) : List CostLineRecord :=
  let projectNumber := pyOrO (pyOrO (xmlGet proj "number") (findtext proj "Number"))
    (findtext proj "PROJECT_NUMBER")
  let projectName := pyOrO (pyOrO (xmlGet proj "name") (findtext proj "Name"))
    (findtext proj "PROJECT_TITLE")
  ((xmlDescsProper proj).filter (fun n => ccAliases.contains (xmlTag n))).map
    (xmlCcRecord peNumber peName projectNumber projectName)

/-- Program element loop body of _parse_xml_file: elements whose number
is falsy are skipped before any record is built. -/
def xmlPeRecords (pe : XmlNode) : List CostLineRecord :=
  let peNumber := pyOrO (pyOrO (pyOrO (xmlGet pe "number") (findtext pe "Number"))
    (findtext pe "PROGRAM_ELEMENT_NUMBER")) (findtext pe "PeNumber")
  let peName := pyOrO (pyOrO (pyOrO (xmlGet pe "name") (findtext pe "Name"))
    (findtext pe "PROGRAM_ELEMENT_TITLE")) (findtext pe "PeName")
  if peNumber.getD "" = "" then []
  else concatMap (xmlProjRecords peNumber peName)
    ((xmlDescsProper pe).filter (fun n => projAliases.contains (xmlTag n)))

/-- Embeds _parse_xml_file of xml_r3_parser.py on a parsed tree. -/
def parse_xml_root (root : XmlNode) : List CostLineRecord :=
  concatMap xmlPeRecords ((xmlDescs root).filter (fun n => peAliases.contains (xmlTag n)))

/-- Embeds _parse_xml_file including its try block: None models a file
etree.parse raised on, which contributes no records. -/
def parse_xml_fileO (t : Option XmlNode) : List CostLineRecord :=
  match t with
  | Option.none => []
  | some root => parse_xml_root root

/-- One input path of parse_r3_projects as the file system and the two
reading collaborators expose it: whether os.path.isfile holds, the
lower-cased extension os.path.splitext yields, the parsed XML tree when
etree.parse succeeds, the worksheets when load_workbook succeeds. -/
structure FSFile where
  isFile : Bool
  ext : String
  xml : Option XmlNode
  wb : Option (List (List (List Cell)))

/-- Per-path body of the parse_r3_projects loop: extension dispatch with
the XML-first fallback for unknown extensions. -/
def parse_one_file (f : FSFile) : List CostLineRecord :=
  if !f.isFile then []
  else if f.ext = ".xml" || f.ext = ".xls" || f.ext = ".xlt" || f.ext = ".mxl" then
    parse_xml_fileO f.xml
  else if f.ext = ".xlsx" || f.ext = ".xlsm" then parse_xlsx_file f.wb
  else
    let p := parse_xml_fileO f.xml
    if p.isEmpty then parse_xlsx_file f.wb else p

/-- Embeds parse_r3_projects of xml_r3_parser.py: files processed in
input order, each appending its records. -/
def parse_r3_projects : List FSFile → List CostLineRecord
  | [] => []
  | f :: fs => parse_one_file f ++ parse_r3_projects fs

/-- Case-insensitive literal match at the head of a suffix, returning the
remaining characters on success; the regex literal fragment under
re.IGNORECASE, ASCII fold. -/
def ciPre : List Char → List Char → Option (List Char)
  | [], s => some s
  | _ :: _, [] => Option.none
  | p :: ps, c :: cs => if c.toLower = p.toLower then ciPre ps cs else Option.none

/-- The regex \b boundary right after a word character, judged on the
remaining characters. -/
def wordBoundary (r : List Char) : Bool :=
  match r with
  | [] => true
  | c :: _ => !isWordChar c

/-- Anchor matcher for the SECTION_PATTERNS regexes of r2_parser.py, all
of shape letter, escaped dot, star of white space, literal, boundary;
matched case-insensitively, returning the characters after the match. -/
def anchorAt (letter : Char) (lit : String) (s : List Char) : Option (List Char) :=
  match s with
  | c1 :: '.' :: rest =>
    if c1.toLower = letter.toLower then
      match ciPre lit.toList (rest.dropWhile isPySpace) with
      | some r => if wordBoundary r then some r else Option.none
      | Option.none => Option.none
    else Option.none
  | _ => Option.none

/-- The mission anchor regex of SECTION_PATTERNS. -/
def missionAnchorAt (s : List Char) : Option (List Char) :=
  anchorAt 'A' "Mission Description and Budget Item Justification" s

/-- The accomplishments anchor regex of SECTION_PATTERNS. -/
def accompAnchorAt (s : List Char) : Option (List Char) :=
  anchorAt 'C' "Accomplishments/Planned Programs" s

/-- The acquisition anchor regex of SECTION_PATTERNS. -/
def acquisAnchorAt (s : List Char) : Option (List Char) :=
  anchorAt 'D' "Acquisition Strategy" s

/-- Leftmost match of a matcher over a text, as re.search finds it:
start and end offsets of the first position where the matcher succeeds. -/
def firstMatchAux (m : List Char → Option (List Char)) : List Char → Option (Nat × Nat)
  | [] =>
    match m [] with
    | some _ => some (0, 0)
    | Option.none => Option.none
  | c :: t =>
    match m (c :: t) with
    | some r => some (0, (c :: t).length - r.length)
    | Option.none => (firstMatchAux m t).map (fun p => (p.1 + 1, p.2 + 1))

/-- The generic section end regex of r2_parser.py, caret, star of white
space, capital letter class under IGNORECASE, escaped dot, one white
space; compiled without MULTILINE, so the caret only matches at the
start of the searched slice. -/
def genericBoundaryAtStart (s : List Char) : Bool :=
  match s.dropWhile isPySpace with
  | c :: '.' :: d :: _ => c.isAlpha && isPySpace d
  | _ => false

/-- The three end marker regexes a section search may receive. -/
inductive EndPat where
  | accomp
  | acquis
  | generic
deriving DecidableEq

/-- Start offset of the first match of an end marker in a slice, as
re.finditer enumerates them; the caret-anchored generic marker can only
match at offset zero. -/
def endPatFirstStart (p : EndPat) (s : List Char) : Option Nat :=
  match p with
  | EndPat.accomp => (firstMatchAux accompAnchorAt s).map (fun q => q.1)
  | EndPat.acquis => (firstMatchAux acquisAnchorAt s).map (fun q => q.1)
  | EndPat.generic => if genericBoundaryAtStart s then some 0 else Option.none

/-- Least value of a list of found offsets, None when empty; the min of
the end match list in _extract_section. -/
def minOffset : List Nat → Option Nat
  | [] => Option.none
  | n :: rest =>
    match minOffset rest with
    | Option.none => some n
    | some m => some (if n ≤ m then n else m)

/-- Collapse every run of white space to one space, the \s+ substitution
of _normalize_text. -/
def collapseWs : List Char → List Char
  | [] => []
  | [c] => if isPySpace c then [' '] else [c]
  | c :: d :: t =>
    if isPySpace c then
      if isPySpace d then collapseWs (d :: t)
      else ' ' :: collapseWs (d :: t)
    else c :: collapseWs (d :: t)

/-- Embeds _normalize_text of r2_parser.py: white space runs collapsed to
one space, then stripped. -/
def normalize_text (cs : List Char) : String := String.mk (stripChars (collapseWs cs))

/-- Embeds _extract_section of r2_parser.py: find the start anchor, then
cut at the nearest end marker match inside the remaining text, or run to
the end of text when none matches; the cut text is normalized. -/
def extract_section (text : List Char) (startM : List Char → Option (List Char))
    (endPats : List EndPat) : Option String :=
  match firstMatchAux startM text with
  | Option.none => Option.none
  | some se =>
    let slice := text.drop se.2
    match minOffset (endPats.filterMap (fun p => endPatFirstStart p slice)) with
    | Option.none => some (normalize_text slice)
    | some k => some (normalize_text (slice.take k))

/-- Mission section carving call of extract_r2_sections_for_pe. -/
def carve_mission (text : String) : Option String :=
  extract_section text.toList missionAnchorAt [EndPat.accomp, EndPat.acquis, EndPat.generic]

/-- Accomplishments section carving call of extract_r2_sections_for_pe. -/
def carve_accomplishments (text : String) : Option String :=
  extract_section text.toList accompAnchorAt [EndPat.acquis, EndPat.generic]

/-- Acquisition section carving call of extract_r2_sections_for_pe. -/
def carve_acquisition (text : String) : Option String :=
  extract_section text.toList acquisAnchorAt [EndPat.generic]

/-- The Yes or No alternative with its boundary at the tail of the new
start regex of _detect_new_start_flag. -/
def yesNoAt (s : List Char) : Option Bool :=
  match ciPre "yes".toList s with
  | some r => if wordBoundary r then some true else Option.none
  | Option.none =>
    match ciPre "no".toList s with
    | some r => if wordBoundary r then some false else Option.none
    | Option.none => Option.none

/-- Match of the whole new start regex of _detect_new_start_flag at one
position: the New and Start literals with optional white space, an
optional colon or dash separator, then Yes or No. -/
def newStartAt (s : List Char) : Option Bool :=
  match ciPre "new".toList s with
  | Option.none => Option.none
  | some r1 =>
    match ciPre "start".toList (r1.dropWhile isPySpace) with
    | Option.none => Option.none
    | some r2 =>
      let r3 := r2.dropWhile isPySpace
      let r4 :=
        match r3 with
        | ':' :: t => t
        | '-' :: t => t
        | _ => r3
      yesNoAt (r4.dropWhile isPySpace)

/-- Scan of re.search for the new start regex: the leftmost matching
position decides. -/
def detectNewStartAux : List Char → Option Bool
  | [] => Option.none
  | c :: t =>
    match newStartAt (c :: t) with
    | some b => some b
    | Option.none => detectNewStartAux t

/-- Embeds _detect_new_start_flag of r2_parser.py. -/
def detect_new_start_flag (text : String) : Option Bool := detectNewStartAux text.toList

/-- Embeds the is_new_start stringification of extract_r2_sections_for_pe:
None stays None, a boolean prints as str(bool(v)). -/
def encodeNewStart (v : Option Bool) : Option String :=
  match v with
  | Option.none => Option.none
  | some b => some (if b then "True" else "False")

/-- Concatenated narrative text of the section carving scenario. -/
def scenarioText : String :=
  "... A. Mission Description and Budget Item Justification The program develops X. C. Accomplishments/Planned Programs Built Y in FY23. D. Acquisition Strategy Sole source. E. Other ..."

/-- Header row of the row walker scenario worksheet. -/
def scenarioHeader : List Cell :=
  [Cell.str "Type", Cell.str "PE#", Cell.str "Project#",
   Cell.str "Accomplishments/Planned Programs Title", Cell.str "Description",
   Cell.str "FY2023", Cell.str "FY2024", Cell.str "FY2025 Base"]

/-- PE context row of the row walker scenario. -/
def scenarioPeRow : List Cell :=
  [Cell.str "PE", Cell.str "0604123X", Cell.none, Cell.str "Hypersonics",
   Cell.none, Cell.none, Cell.none, Cell.none]

/-- PROJECT row of the row walker scenario. -/
def scenarioProjRow : List Cell :=
  [Cell.str "PROJECT", Cell.none, Cell.str "001", Cell.str "Flight Test",
   Cell.none, Cell.num 10, Cell.num 12, Cell.num 15]

/-- The single record the row walker scenario must emit. -/
def scenarioExpectedRecord : CostLineRecord :=
  { PENumber := "0604123X"
    PEName := "Hypersonics"
    ProjectNumber := "001"
    ProjectName := "Flight Test"
    CostCategory := "Project Totals"
    FY2023_Cost := some 10
    FY2024_Cost := some 12
    FY2025_Base_Cost := some 15
    R1D_Description := some "" }

/-- C1. The generic end boundary regex is compiled without MULTILINE, so
its caret only matches at the start of the post-anchor slice: on the
scenario text the acquisition section is not cut at the E. line start
and the claimed value Sole source. is not returned. -/
theorem c1_counterexample : carve_acquisition scenarioText ≠ some "Sole source." := by
  with_unfolding_all decide

/-- C1 amended. Section carving on the scenario text: each section runs
from its anchor to the nearest subsequent boundary among the
more-specific anchors, or the generic letter-dot pattern only when that
pattern matches at the very start of the post-anchor slice; the mission
and accomplishments sections carve as claimed, and the acquisition
section runs to the end of text. -/
theorem c1_section_carving_amended :
    carve_mission scenarioText = some "The program develops X." ∧
    carve_accomplishments scenarioText = some "Built Y in FY23." ∧
    carve_acquisition scenarioText = some "Sole source. E. Other ..." := by
  exact ⟨by with_unfolding_all rfl, by with_unfolding_all rfl, by with_unfolding_all rfl⟩

/-- Sample cost line row used by witnesses. -/
def sampleRow : CostLineRecord :=
  { PENumber := "PE1"
    PEName := ""
    ProjectNumber := ""
    ProjectName := ""
    CostCategory := "cat"
    FY2023_Cost := Option.none
    FY2024_Cost := Option.none
    FY2025_Base_Cost := Option.none
    R1D_Description := some "desc" }

/-- Lookup with no bundles, used by witnesses. -/
def noBundleLookup : String → Option NarrativeBundle := fun _ => Option.none

/-- Sample bundle used by witnesses. -/
def sampleBundle : NarrativeBundle :=
  { mission := some "m"
    accomplishments := Option.none
    acquisition := some "q"
    is_new_start := some "True" }

/-- Lookup carrying the sample bundle under the key PE1. -/
def sampleLookup : String → Option NarrativeBundle :=
  fun s => if s = "PE1" then some sampleBundle else Option.none

/-- C2. Fusion cardinality and order: one enriched record per cost line
row, in input order, with identifier and cost fields copied from the
matching input row; a row whose trimmed PENumber has no bundle still
yields a record, and under the default disabled fallback its narrative
fields and new start flag are null. -/
theorem c2_fusion_cardinality_order (srcFile : String) (rows : List CostLineRecord)
    (lookup : String → Option NarrativeBundle) (useR1dDescription : Bool) :
    (fuse_r3_with_r2 srcFile rows lookup useR1dDescription).length = rows.length ∧
    (fuse_r3_with_r2 srcFile rows lookup useR1dDescription).map
        (fun e => (e.PENumber, e.PEName, e.ProjectNumber, e.ProjectName, e.CostCategory,
          e.FY2023_Cost, e.FY2024_Cost, e.FY2025_Base_Cost))
      = rows.map (fun r => (r.PENumber, r.PEName, r.ProjectNumber, r.ProjectName, r.CostCategory,
          r.FY2023_Cost, r.FY2024_Cost, r.FY2025_Base_Cost)) ∧
    ∀ row : CostLineRecord, lookup (pyStrip row.PENumber) = Option.none →
      (fuseRow srcFile lookup false row).AccomplishmentsText = Option.none ∧
      (fuseRow srcFile lookup false row).MissionDescriptionText = Option.none ∧
      (fuseRow srcFile lookup false row).AcquisitionStrategyText = Option.none ∧
      (fuseRow srcFile lookup false row).IsNewStart = Option.none := by
  refine ⟨by simp [fuse_r3_with_r2], ?_, ?_⟩
  · rw [fuse_r3_with_r2, List.map_map]
    rfl
  · intro row hrow
    simp [fuseRow, hrow, emptyBundle, decodeNewStart]

/-- C2 witness at a concrete unmatched row. -/
theorem c2_fusion_cardinality_order_witness :
    (fuseRow "src" noBundleLookup false sampleRow).AccomplishmentsText = Option.none :=
  ((c2_fusion_cardinality_order "src" [sampleRow] noBundleLookup false).2.2 sampleRow rfl).1

/-- C3. Fallback policy of the fusion engine on a row whose trimmed
PENumber resolves to a bundle: with the flag disabled the three narrative
fields equal the bundle fields exactly; with the flag enabled the trimmed
R1D description substitutes for accomplishments exactly when the bundle
accomplishments is null or empty and the description is non-empty, and
independently for mission, while acquisition and non-empty bundle values
are never altered. -/
theorem c3_fallback_policy (srcFile : String) (lookup : String → Option NarrativeBundle)
    (row : CostLineRecord) (b : NarrativeBundle)
    (h : lookup (pyStrip row.PENumber) = some b) :
    ((fuseRow srcFile lookup false row).AccomplishmentsText = b.accomplishments ∧
      (fuseRow srcFile lookup false row).MissionDescriptionText = b.mission ∧
      (fuseRow srcFile lookup false row).AcquisitionStrategyText = b.acquisition) ∧
    (fuseRow srcFile lookup true row).AcquisitionStrategyText = b.acquisition ∧
    (pyTruthy b.accomplishments = true →
      (fuseRow srcFile lookup true row).AccomplishmentsText = b.accomplishments) ∧
    (pyTruthy b.accomplishments = false → pyStrip (row.R1D_Description.getD "") ≠ "" →
      (fuseRow srcFile lookup true row).AccomplishmentsText
        = some (pyStrip (row.R1D_Description.getD ""))) ∧
    (pyTruthy b.accomplishments = false → pyStrip (row.R1D_Description.getD "") = "" →
      (fuseRow srcFile lookup true row).AccomplishmentsText = b.accomplishments) ∧
    (pyTruthy b.mission = true →
      (fuseRow srcFile lookup true row).MissionDescriptionText = b.mission) ∧
    (pyTruthy b.mission = false → pyStrip (row.R1D_Description.getD "") ≠ "" →
      (fuseRow srcFile lookup true row).MissionDescriptionText
        = some (pyStrip (row.R1D_Description.getD ""))) ∧
    (pyTruthy b.mission = false → pyStrip (row.R1D_Description.getD "") = "" →
      (fuseRow srcFile lookup true row).MissionDescriptionText = b.mission) := by
  refine ⟨⟨by simp [fuseRow, h], by simp [fuseRow, h], by simp [fuseRow, h]⟩,
    by simp [fuseRow, h], ?_, ?_, ?_, ?_, ?_, ?_⟩
  · intro ht
    simp [fuseRow, h, ht]
  · intro ht hd
    simp [fuseRow, h, ht, hd]
  · intro ht hd
    simp [fuseRow, h, ht, hd]
  · intro ht
    simp [fuseRow, h, ht]
  · intro ht hd
    simp [fuseRow, h, ht, hd]
  · intro ht hd
    simp [fuseRow, h, ht, hd]

/-- C3 witness at a concrete row and bundle. -/
theorem c3_fallback_policy_witness :
    (fuseRow "src" sampleLookup false sampleRow).MissionDescriptionText = some "m" :=
  ((c3_fallback_policy "src" sampleLookup sampleRow sampleBundle
    (by with_unfolding_all rfl)).1).2.1

/-- C5. Row walker PE then PROJECT transition scenario: the header row is
detected at row one with the hierarchical signature, the header map
carries the Type, PE number and project number columns, and the walk
over the PE row followed by the PROJECT row emits exactly the one
claimed record. -/
theorem c5_pe_project_scenario :
    find_header_row [scenarioHeader, scenarioPeRow, scenarioProjRow] = some 1 ∧
    (header_map scenarioHeader).typeCol.isSome = true ∧
    (header_map scenarioHeader).peNum.isSome = true ∧
    (header_map scenarioHeader).projNum.isSome = true ∧
    parse_r1d_sheet (header_map scenarioHeader) [scenarioPeRow, scenarioProjRow]
      = [scenarioExpectedRecord] := by
  exact ⟨by with_unfolding_all rfl, by with_unfolding_all rfl, by with_unfolding_all rfl,
    by with_unfolding_all rfl, by with_unfolding_all rfl⟩

/-- XML tree whose program element number attribute is a single space:
truthy for the falsy skip check, yet empty once trimmed. -/
def c6Tree : XmlNode :=
  XmlNode.el "ProgramElement" [("number", " ")] Option.none
    [XmlNode.el "Project" [] Option.none [XmlNode.el "Line" [] Option.none []]]

/-- The c6Tree packaged as an existing .xml input file. -/
def c6File : FSFile :=
  { isFile := true
    ext := ".xml"
    xml := some c6Tree
    wb := Option.none }

/-- C6. The XML path checks the raw program element number for
truthiness before trimming, so a whitespace-only number produces a
record whose trimmed PENumber, ProjectNumber and CostCategory are all
empty: the retention invariant fails on the XML path. -/
theorem c6_counterexample :
    ¬ (∀ rec ∈ parse_one_file c6File,
      rec.PENumber ≠ "" ∨ rec.ProjectNumber ≠ "" ∨ rec.CostCategory ≠ "") := by
  with_unfolding_all decide

/-- C7. The new start regex search takes the leftmost match, so a text
that contains the phrase New Start: Yes after an earlier New Start: No
yields false, not true. -/
theorem c7_counterexample :
    detect_new_start_flag ("New Start: No " ++ "New Start: Yes") = some false := by
  with_unfolding_all rfl

/-- Leaf row whose derived category is a summary duplicate: dropped by
the double count guard without context update. -/
def summaryLeafRow : List Cell :=
  [Cell.str "A/PP", Cell.none, Cell.none, Cell.str "Sum of Project Totals",
   Cell.none, Cell.none, Cell.none, Cell.none]

/-- Walker context with everything set, used by counterexamples. -/
def fullWalkState : WalkState :=
  ⟨some "0604123X", some "Hypersonics", some "001", some "Flight Test"⟩

/-- Non-blank row whose Type cell is the empty string. -/
def emptyTypeRow : List Cell :=
  [Cell.str "", Cell.none, Cell.none, Cell.str "stray text",
   Cell.none, Cell.none, Cell.none, Cell.none]

/-- C10. A non-blank row with non-empty Type can emit nothing and leave
the context unchanged: a leaf row dropped by the double count guard
neither updates the context nor emits a record, so non-empty Type rows
do not all update context or emit. -/
theorem c10_counterexample :
    blankRow summaryLeafRow = false ∧
    rowTypeOf (header_map scenarioHeader) summaryLeafRow ≠ "" ∧
    stepRow (header_map scenarioHeader) summaryLeafRow fullWalkState = ([], fullWalkState) := by
  with_unfolding_all decide

/-- Decoding inverts the stringified new start flag. -/
lemma decode_encode_new_start (v : Option Bool) : decodeNewStart (encodeNewStart v) = v := by
  rcases v with _ | b
  · rfl
  · cases b <;> rfl

/-- C7 amended. The new start flag detection and round trip: the leftmost
occurrence of the New Start pattern decides the flag, so an isolated Yes
yields true and an isolated No yields false, a text with no occurrence of
the pattern yields null, and the fusion engine returns the bundle flag
unchanged across the string encoding of the extractor. -/
theorem c7_new_start_amended :
    (∀ v : Option Bool, decodeNewStart (encodeNewStart v) = v) ∧
    (∀ (srcFile : String) (lookup : String → Option NarrativeBundle) (useR1d : Bool)
        (row : CostLineRecord) (b : NarrativeBundle) (v : Option Bool),
      lookup (pyStrip row.PENumber) = some b → b.is_new_start = encodeNewStart v →
      (fuseRow srcFile lookup useR1d row).IsNewStart = v) ∧
    detect_new_start_flag "New Start: Yes" = some true ∧
    detect_new_start_flag "New Start: No" = some false ∧
    (∀ t : List Char, (∀ n : Nat, newStartAt (t.drop n) = Option.none) →
      detectNewStartAux t = Option.none) := by
  refine ⟨decode_encode_new_start, ?_, by with_unfolding_all rfl, by with_unfolding_all rfl, ?_⟩
  · intro srcFile lookup useR1d row b v h1 h2
    simp [fuseRow, h1, h2, decode_encode_new_start]
  · intro t
    induction t with
    | nil => intro _; rfl
    | cons c t ih =>
      intro h
      have h0 := h 0
      simp only [List.drop_zero] at h0
      simp only [detectNewStartAux, h0]
      exact ih (fun n => by simpa using h (n + 1))

/-- C7 witness: the sample bundle flag string decodes back through
fusion at a concrete row. -/
theorem c7_new_start_amended_witness :
    (fuseRow "src" sampleLookup false sampleRow).IsNewStart = some true :=
  c7_new_start_amended.2.1 "src" sampleLookup false sampleRow sampleBundle (some true)
    (by with_unfolding_all rfl) rfl

/-- C9. Fail-soft batch ingestion: the batch result is the concatenation
of the per-file results in input order, a file contributing no records
drops out of the batch without affecting the rest, a path that is not a
file contributes zero records, and a file neither the XML reader nor the
workbook reader can open contributes zero records. -/
theorem c9_fail_soft :
    (∀ fs gs : List FSFile,
      parse_r3_projects (fs ++ gs) = parse_r3_projects fs ++ parse_r3_projects gs) ∧
    (∀ (pre post : List FSFile) (f : FSFile), parse_one_file f = [] →
      parse_r3_projects (pre ++ f :: post) = parse_r3_projects pre ++ parse_r3_projects post) ∧
    (∀ (ext : String) (x : Option XmlNode) (w : Option (List (List (List Cell)))),
      parse_one_file { isFile := false, ext := ext, xml := x, wb := w } = []) ∧
    (∀ ext : String,
      parse_one_file { isFile := true, ext := ext, xml := Option.none, wb := Option.none }
        = []) := by
  have happ : ∀ fs gs : List FSFile,
      parse_r3_projects (fs ++ gs) = parse_r3_projects fs ++ parse_r3_projects gs := by
    intro fs gs
    induction fs with
    | nil => rfl
    | cons f fs ih =>
      simp only [List.cons_append, parse_r3_projects, List.append_eq, ih, List.append_assoc]
  refine ⟨happ, ?_, ?_, ?_⟩
  · intro pre post f hf
    rw [happ pre (f :: post)]
    simp only [parse_r3_projects, hf, List.nil_append]
  · intro ext x w
    rfl
  · intro ext
    simp only [parse_one_file, parse_xml_fileO, parse_xlsx_file]
    split <;> [rfl; split <;> [rfl; split <;> rfl]]

/-- C9 witness: a missing file in the middle of a batch drops out while
the surrounding files still contribute in order. -/
theorem c9_fail_soft_witness :
    parse_r3_projects [c6File,
      { isFile := false, ext := ".xml", xml := Option.none, wb := Option.none }]
      = parse_r3_projects [c6File] ++ parse_r3_projects [] :=
  c9_fail_soft.2.1 [c6File] []
    { isFile := false, ext := ".xml", xml := Option.none, wb := Option.none } rfl

/-- Every record one walker step emits is the project totals record of a
PROJECT row, or a leaf record that passed both the summary guard and the
identifier guard. -/
lemma mem_stepRow_cases (hdr : HdrMap) (row : List Cell) (st : WalkState)
    (rec : CostLineRecord) (h : rec ∈ (stepRow hdr row st).1) :
    rec = projectRecord hdr row st ∨
    (rec = leafRecord hdr row st ∧ summaryGuard (leafCategory hdr row) = false ∧
      (rec.PENumber ≠ "" ∨ rec.ProjectNumber ≠ "" ∨ rec.CostCategory ≠ "")) := by
  simp only [stepRow] at h
  split at h
  · simp at h
  · split at h
    · simp at h
      exact Or.inl h
    · split at h
      · split at h
        · simp at h
        · split at h
          · rename_i hguard hid
            simp at h
            subst h
            exact Or.inr ⟨rfl, by simpa using hguard, hid⟩
          · simp at h
      · simp at h

/-- Walker output property by induction over the rows: any per-step
emission property carries over to the whole walk. -/
lemma walkRows_mem_induction (hdr : HdrMap) {P : CostLineRecord → Prop}
    (hstep : ∀ (row : List Cell) (st : WalkState) (rec : CostLineRecord),
      rec ∈ (stepRow hdr row st).1 → P rec) :
    ∀ (rows : List (List Cell)) (st : WalkState) (streak : Nat)
      (rec : CostLineRecord), rec ∈ walkRows hdr rows st streak → P rec := by
  intro rows
  induction rows with
  | nil =>
    intro st streak rec h
    simp [walkRows] at h
  | cons row rest ih =>
    intro st streak rec h
    simp only [walkRows] at h
    split at h
    · split at h
      · simp at h
      · exact ih st (streak + 1) rec h
    · rcases List.mem_append.mp h with h1 | h2
      · exact hstep row st rec h1
      · exact ih _ 0 rec h2

/-- C4. Double count guard: no record the row walker emits has a
category whose case-folded text contains both totals and sum of; a
record whose case-folded category is exactly project totals can only be
the literal Project Totals record of the PROJECT branch, never a leaf
row category; in particular no emitted record carries the category Sum
of Project Totals. -/
theorem c4_double_count_guard (hdr : HdrMap) (rows : List (List Cell)) :
    ∀ rec ∈ parse_r1d_sheet hdr rows,
      ¬(containsSub "totals" (lowerStr rec.CostCategory) = true ∧
        containsSub "sum of" (lowerStr rec.CostCategory) = true) ∧
      (lowerStr rec.CostCategory = "project totals" → rec.CostCategory = "Project Totals") ∧
      rec.CostCategory ≠ "Sum of Project Totals" := by
  intro rec hrec
  refine walkRows_mem_induction hdr (P := fun r =>
    ¬(containsSub "totals" (lowerStr r.CostCategory) = true ∧
      containsSub "sum of" (lowerStr r.CostCategory) = true) ∧
    (lowerStr r.CostCategory = "project totals" → r.CostCategory = "Project Totals") ∧
    r.CostCategory ≠ "Sum of Project Totals") ?_ rows initialWalkState 0 rec hrec
  intro row st r hr
  rcases mem_stepRow_cases hdr row st r hr with hproj | ⟨hleaf, hguard, _⟩
  · have hcat : r.CostCategory = "Project Totals" := by rw [hproj]; rfl
    refine ⟨?_, fun _ => hcat, ?_⟩
    · rw [hcat]
      decide
    · rw [hcat]
      decide
  · have hcat : r.CostCategory = leafCategory hdr row := by rw [hleaf]; rfl
    rw [summaryGuard] at hguard
    simp only [Bool.or_eq_false_iff, Bool.and_eq_false_iff, decide_eq_false_iff_not] at hguard
    rw [hcat] at *
    refine ⟨?_, fun hl => absurd hl hguard.2, ?_⟩
    · intro hand
      rcases hguard.1 with hf | hf
      · rw [hand.1] at hf
        simp at hf
      · rw [hand.2] at hf
        simp at hf
    · intro heq
      rw [heq] at hguard
      rcases hguard.1 with hf | hf <;> revert hf <;> decide

/-- C4 witness at the scenario walk, whose single record is the PROJECT
totals record. -/
theorem c4_double_count_guard_witness :
    scenarioExpectedRecord.CostCategory ≠ "Sum of Project Totals" :=
  (c4_double_count_guard (header_map scenarioHeader) [scenarioPeRow, scenarioProjRow]
    scenarioExpectedRecord (by with_unfolding_all decide)).2.2

/-- Every record the generic row loop keeps has a PE number or a project
number, by the identifier skip of _parse_xlsx_file. -/
lemma walkGeneric_mem (hdr : HdrMap) :
    ∀ (rows : List (List Cell)) (streak : Nat) (rec : CostLineRecord),
      rec ∈ walkGeneric hdr rows streak → rec.PENumber ≠ "" ∨ rec.ProjectNumber ≠ "" := by
  intro rows
  induction rows with
  | nil =>
    intro streak rec h
    simp [walkGeneric] at h
  | cons row rest ih =>
    intro streak rec h
    simp only [walkGeneric] at h
    split at h
    · split at h
      · simp at h
      · exact ih (streak + 1) rec h
    · split at h
      · exact ih 0 rec h
      · rename_i hid
        rcases List.mem_cons.mp h with h1 | h2
        · subst h1
          exact not_and_or.mp hid
        · exact ih 0 rec h2

/-- C6 amended. Retention invariant on the spreadsheet paths: every
record the hierarchical row walker or the generic row loop keeps has at
least one of PENumber, ProjectNumber, CostCategory non-empty; on the XML
path only the untrimmed PE number is guaranteed truthy, so the invariant
can fail there as the counterexample shows. -/
theorem c6_retention_amended (hdr : HdrMap) (rows : List (List Cell)) :
    (∀ rec ∈ parse_r1d_sheet hdr rows,
      rec.PENumber ≠ "" ∨ rec.ProjectNumber ≠ "" ∨ rec.CostCategory ≠ "") ∧
    (∀ streak : Nat, ∀ rec ∈ walkGeneric hdr rows streak,
      rec.PENumber ≠ "" ∨ rec.ProjectNumber ≠ "" ∨ rec.CostCategory ≠ "") := by
  constructor
  · intro rec hrec
    refine walkRows_mem_induction hdr (P := fun r =>
      r.PENumber ≠ "" ∨ r.ProjectNumber ≠ "" ∨ r.CostCategory ≠ "") ?_
      rows initialWalkState 0 rec hrec
    intro row st r hr
    rcases mem_stepRow_cases hdr row st r hr with hproj | ⟨_, _, hid⟩
    · right
      right
      rw [hproj]
      show ("Project Totals" : String) ≠ ""
      decide
    · exact hid
  · intro streak rec h
    rcases walkGeneric_mem hdr rows streak rec h with h1 | h1
    · exact Or.inl h1
    · exact Or.inr (Or.inl h1)

/-- C6 witness at the scenario walk. -/
theorem c6_retention_amended_witness :
    scenarioExpectedRecord.PENumber ≠ "" ∨ scenarioExpectedRecord.ProjectNumber ≠ ""
      ∨ scenarioExpectedRecord.CostCategory ≠ "" :=
  (c6_retention_amended (header_map scenarioHeader) [scenarioPeRow, scenarioProjRow]).1
    scenarioExpectedRecord (by with_unfolding_all decide)

/-- A row whose Type text is empty takes no branch of the walker step:
nothing is emitted and the context is returned unchanged. -/
lemma stepRow_empty_type (hdr : HdrMap) (row : List Cell) (st : WalkState)
    (ht : rowTypeOf hdr row = "") : stepRow hdr row st = ([], st) := by
  simp only [stepRow, ht]
  simp

/-- C10 amended. A non-blank row with empty or missing Type emits no
record and leaves both context variables unchanged, and is skipped in
the walk with only the blank streak reset; a row with non-empty Type is
a context setting row (PE, PROJECT, PROJECTS, PRJ), emits its leaf
record, or is silently dropped by the summary double count guard or by
the identifier guard, again with the context unchanged. -/
theorem c10_frame_effect_amended :
    (∀ (hdr : HdrMap) (row : List Cell) (st : WalkState),
      blankRow row = false → rowTypeOf hdr row = "" → stepRow hdr row st = ([], st)) ∧
    (∀ (hdr : HdrMap) (row : List Cell) (rest : List (List Cell)) (st : WalkState) (streak : Nat),
      blankRow row = false → rowTypeOf hdr row = "" →
      walkRows hdr (row :: rest) st streak = walkRows hdr rest st 0) ∧
    (∀ (hdr : HdrMap) (row : List Cell) (st : WalkState),
      rowTypeOf hdr row ≠ "" →
      (rowTypeOf hdr row = "PE" ∨ rowTypeOf hdr row = "PROJECT"
        ∨ rowTypeOf hdr row = "PROJECTS" ∨ rowTypeOf hdr row = "PRJ")
      ∨ stepRow hdr row st = ([leafRecord hdr row st], st)
      ∨ (summaryGuard (leafCategory hdr row) = true ∧ stepRow hdr row st = ([], st))
      ∨ ((leafRecord hdr row st).PENumber = "" ∧ (leafRecord hdr row st).ProjectNumber = ""
          ∧ (leafRecord hdr row st).CostCategory = "" ∧ stepRow hdr row st = ([], st))) := by
  refine ⟨fun hdr row st _ ht => stepRow_empty_type hdr row st ht, ?_, ?_⟩
  · intro hdr row rest st streak hb ht
    simp only [walkRows, hb, Bool.false_eq_true, if_false, stepRow_empty_type hdr row st ht,
      List.nil_append]
  · intro hdr row st ht
    by_cases h1 : rowTypeOf hdr row = "PE"
    · exact Or.inl (Or.inl h1)
    by_cases h2 : rowTypeOf hdr row = "PROJECT"
    · exact Or.inl (Or.inr (Or.inl h2))
    by_cases h3 : rowTypeOf hdr row = "PROJECTS"
    · exact Or.inl (Or.inr (Or.inr (Or.inl h3)))
    by_cases h4 : rowTypeOf hdr row = "PRJ"
    · exact Or.inl (Or.inr (Or.inr (Or.inr h4)))
    have hstep : stepRow hdr row st
        = if summaryGuard (leafCategory hdr row) then ([], st)
          else if (leafRecord hdr row st).PENumber ≠ "" ∨ (leafRecord hdr row st).ProjectNumber ≠ ""
              ∨ (leafRecord hdr row st).CostCategory ≠ "" then ([leafRecord hdr row st], st)
          else ([], st) := by
      simp only [stepRow]
      rw [if_neg h1, if_neg (by tauto), if_pos (Or.inr ⟨ht, h1, h2⟩)]
    cases hg : summaryGuard (leafCategory hdr row) with
    | true =>
      right
      right
      left
      rw [hstep, if_pos hg]
      exact ⟨rfl, rfl⟩
    | false =>
      by_cases hid : (leafRecord hdr row st).PENumber ≠ "" ∨ (leafRecord hdr row st).ProjectNumber ≠ ""
          ∨ (leafRecord hdr row st).CostCategory ≠ ""
      · right
        left
        rw [hstep, if_neg (by simp [hg]), if_pos hid]
      · right
        right
        right
        push_neg at hid
        rw [hstep, if_neg (by simp [hg]), if_neg (by push_neg; exact hid)]
        exact ⟨hid.1, hid.2.1, hid.2.2, rfl⟩

/-- C10 witness: a concrete non-blank empty-Type row is skipped with the
context intact. -/
theorem c10_frame_effect_amended_witness :
    stepRow (header_map scenarioHeader) emptyTypeRow fullWalkState = ([], fullWalkState) :=
  c10_frame_effect_amended.1 (header_map scenarioHeader) emptyTypeRow fullWalkState
    (by with_unfolding_all decide) (by with_unfolding_all decide)

/-- A character list whose strip is empty consists of white space. -/
lemma stripChars_eq_nil {cs : List Char} (h : stripChars cs = []) :
    ∀ c ∈ cs, isPySpace c = true := by
  rw [stripChars, List.reverse_eq_nil_iff] at h
  have h2 : ∀ c ∈ (cs.dropWhile isPySpace).reverse, isPySpace c = true :=
    List.dropWhile_eq_nil_iff.mp h
  intro c hc
  have hsplit := List.takeWhile_append_dropWhile isPySpace cs
  rw [← hsplit] at hc
  rcases List.mem_append.mp hc with h3 | h3
  · exact List.mem_takeWhile_imp h3
  · exact h2 c (List.mem_reverse.mpr h3)

/-- White space is never a comma. -/
lemma isPySpace_ne_comma {c : Char} (h : isPySpace c = true) : (c != ',') = true := by
  simp only [isPySpace, Bool.or_eq_true, decide_eq_true_eq] at h
  rcases h with ((((h | h) | h) | h) | h) | h <;> subst h <;> decide

/-- An empty strip at the string level means an all white space list. -/
lemma pyStrip_eq_empty {s : String} (h : pyStrip s = "") : stripChars s.toList = [] := by
  have h2 : (pyStrip s).data = ("" : String).data := by rw [h]
  simpa [pyStrip] using h2

/-- Comma removal and trimming of a blank string stay blank, so the
float parser rejects it. -/
lemma pyFloat_blank {s : String} (h : pyStrip s = "") :
    pyFloat (pyStrip (rmCommas s)) = Option.none := by
  have hl := pyStrip_eq_empty h
  have hsp := stripChars_eq_nil hl
  have hfil : s.toList.filter (fun c => c != ',') = s.toList :=
    List.filter_eq_self.mpr (fun a ha => isPySpace_ne_comma (hsp a ha))
  have hps : pyStrip (rmCommas s) = "" := by
    show String.mk (stripChars (String.mk (s.toList.filter (fun c => c != ','))).toList) = ""
    rw [show (String.mk (s.toList.filter (fun c => c != ','))).toList
        = s.toList.filter (fun c => c != ',') from rfl, hfil, hl]
  rw [hps]
  rfl

/-- C8. Numeric cost parsing: a numeric cell passes through as its
value, an absent cell gives null, a string cell parses exactly as the
float parser on its comma-free trimmed text with blanks and unparseable
text giving null, and the result is zero only for inputs that denote
zero. -/
theorem c8_numeric_parsing :
    (∀ q : Rat, parse_float_safe_any (Cell.num q) = some q) ∧
    parse_float_safe_any Cell.none = Option.none ∧
    (∀ s : String, parse_float_safe_any (Cell.str s) = pyFloat (pyStrip (rmCommas s))) ∧
    (∀ s : String, pyStrip s = "" → parse_float_safe_any (Cell.str s) = Option.none) ∧
    (∀ v : Cell, parse_float_safe_any v = some 0 →
      v = Cell.num 0 ∨ ∃ s, v = Cell.str s ∧ pyFloat (pyStrip (rmCommas s)) = some 0) := by
  refine ⟨fun q => rfl, rfl, ?_, ?_, ?_⟩
  · intro s
    by_cases h : pyStrip s = ""
    · simp only [parse_float_safe_any]
      rw [if_pos h, pyFloat_blank h]
    · simp only [parse_float_safe_any]
      rw [if_neg h]
  · intro s h
    simp only [parse_float_safe_any]
    rw [if_pos h]
  · intro v hv
    cases v with
    | none => simp [parse_float_safe_any] at hv
    | num q =>
      left
      simp only [parse_float_safe_any, Option.some.injEq] at hv
      rw [hv]
    | str s =>
      right
      refine ⟨s, rfl, ?_⟩
      by_cases h : pyStrip s = ""
      · simp [parse_float_safe_any, h] at hv
      · simpa [parse_float_safe_any, h] using hv

/-- C8 witness: a white space string parses to null, not zero. -/
theorem c8_numeric_parsing_witness :
    parse_float_safe_any (Cell.str "  ") = Option.none :=
  c8_numeric_parsing.2.2.2.1 "  " (by with_unfolding_all rfl)

end DojJbook
